import Mathlib

/-!
Shallow embedding of the go-logger repository (package `logger`,
file `logger.go`) and verification of its specification claims.

Log lines are modelled as `List Char` (the bytes written to a stream).
Timestamps produced by the wall clock (`time.Now().Format(...)` in
`timestampWriter.Write`, and the `log.LstdFlags` date/time header of the
colorized `log.Logger`) are passed in as parameters, since they are the
only nondeterministic inputs of the formatting pipeline.
-/

set_option autoImplicit false

namespace GoLogger

/-- The nine severities of `logger.go` (`Level` constants, in `iota` order:
DebugLevel, InfoLevel, WarnLevel, ErrorLevel, FatalLevel, NoticeLevel,
CritLevel, AlertLevel, EmergLevel). -/
inductive Level : Type
  | debugLevel
  | infoLevel
  | warnLevel
  | errorLevel
  | fatalLevel
  | noticeLevel
  | critLevel
  | alertLevel
  | emergLevel
deriving DecidableEq, Repr

/-- Short hand: the character list of a string literal. -/
def str (s : String) : List Char := s.data

/-- The level-name string that `Init` passes to `newColorLogger` /
`newPlainLogger` for each severity (`"DEBUG"`, ..., `"FATAL"`). -/
def levelName : Level → List Char
  | .debugLevel => str "DEBUG"
  | .infoLevel => str "INFO"
  | .warnLevel => str "WARNING"
  | .errorLevel => str "ERROR"
  | .fatalLevel => str "FATAL"
  | .noticeLevel => str "NOTICE"
  | .critLevel => str "CRIT"
  | .alertLevel => str "ALERT"
  | .emergLevel => str "EMERG"

/-- `AllLevels` from `logger.go`. -/
def AllLevels : List Level :=
  [.debugLevel, .infoLevel, .noticeLevel, .warnLevel, .errorLevel,
   .critLevel, .alertLevel, .emergLevel, .fatalLevel]

/-- `allLevelsEnabled` from `logger.go`: every severity maps to true. -/
def allLevelsEnabled : Level → Bool := fun _ => true

/-- `levelsFromSlice` from `logger.go`: membership in the given slice. -/
def levelsFromSlice (levels : List Level) : Level → Bool :=
  fun l => levels.contains l

/-- Go `unicode.IsSpace` restricted to the ASCII space characters
relevant to `strings.TrimSpace`. -/
def isSpaceGo (c : Char) : Bool :=
  c = ' ' || c = '\t' || c = '\n' || c = '\r' ||
    c = Char.ofNat 11 || c = Char.ofNat 12

/-- `strings.TrimSpace`: drop leading and trailing whitespace. -/
def trimSpace (s : List Char) : List Char :=
  ((s.dropWhile isSpaceGo).reverse.dropWhile isSpaceGo).reverse

/-- `strings.Split(s, ",")`: split at every comma. -/
def splitComma : List Char → List (List Char)
  | [] => [[]]
  | c :: rest =>
    if c = ',' then [] :: splitComma rest
    else
      match splitComma rest with
      | t :: ts => (c :: t) :: ts
      | [] => [[c]]

/-- The `switch strings.ToUpper(strings.TrimSpace(p))` body of
`parseLevels`: which severity a (already upper-cased, trimmed) token
names, if any. -/
def levelOfToken (t : List Char) : Option Level :=
  if t = str "DEBUG" then some .debugLevel
  else if t = str "INFO" then some .infoLevel
  else if t = str "NOTICE" then some .noticeLevel
  else if t = str "WARNING" then some .warnLevel
  else if t = str "ERROR" then some .errorLevel
  else if t = str "CRIT" then some .critLevel
  else if t = str "CRITICAL" then some .critLevel
  else if t = str "ALERT" then some .alertLevel
  else if t = str "EMERG" then some .emergLevel
  else if t = str "EMERGENCY" then some .emergLevel
  else if t = str "FATAL" then some .fatalLevel
  else none

/-- One iteration of the `parseLevels` loop: set the named severity in the
accumulated map (unrecognized tokens leave the map unchanged). -/
def applyToken (m : Level → Bool) (p : List Char) : Level → Bool :=
  match levelOfToken ((trimSpace p).map Char.toUpper) with
  | some l => fun x => if x = l then true else m x
  | none => m

/-- The `for _, p := range strings.Split(s, ",")` loop of `parseLevels`. -/
def parseTokens (ts : List (List Char)) (m : Level → Bool) : Level → Bool :=
  ts.foldl applyToken m

/-- `parseLevels` from `logger.go`: trim the whole string; empty enables
all nine severities; otherwise fold the comma-separated tokens into an
initially empty enabled map. -/
def parseLevels (s : List Char) : Level → Bool :=
  let t := trimSpace s
  if t = [] then fun _ => true
  else parseTokens (splitComma t) (fun _ => false)

/-- `resolveLevels` from `logger.go`: an explicit (non-nil) slice wins;
otherwise a non-empty `LOGGER_LEVELS` value is parsed; otherwise all
severities are enabled.  The environment value is a parameter (`[]`
models an unset/empty variable, exactly Go's `os.Getenv` result). -/
def resolveLevels (levels : Option (List Level)) (env : List Char) :
    Level → Bool :=
  match levels with
  | some ls => levelsFromSlice ls
  | none => if env ≠ [] then parseLevels env else allLevelsEnabled

/-- `isLevelEnabled` from `logger.go`, over an explicit enabled set. -/
def isLevelEnabled (enabled : Level → Bool) (level : Level) : Bool :=
  enabled level

/-- The ASCII escape byte `'\033'` used by the ANSI color codes. -/
def escChar : Char := Char.ofNat 27

/-- The `colors` map of `newColorLogger`: per level-name ANSI color code
(missing keys give Go's zero value, the empty string). -/
def colorCodeOf (level : List Char) : List Char :=
  if level = str "DEBUG" then escChar :: str "[36m"
  else if level = str "INFO" then escChar :: str "[32m"
  else if level = str "NOTICE" then escChar :: str "[34m"
  else if level = str "WARNING" then escChar :: str "[33m"
  else if level = str "ERROR" then escChar :: str "[31m"
  else if level = str "CRIT" then escChar :: str "[91m"
  else if level = str "ALERT" then escChar :: str "[95m"
  else if level = str "EMERG" then escChar :: str "[97m"
  else if level = str "FATAL" then escChar :: str "[35m"
  else []

/-- The `reset` code of `newColorLogger`. -/
def resetCode : List Char := escChar :: str "[0m"

/-- The bracketed form `[NAME]` used by both logger constructors. -/
def bracket (name : List Char) : List Char := '[' :: (name ++ [']'])

/-- `prefixForLog` from `logger.go`: append one space to a non-empty
logger prefix. -/
def prefixForLog (pfx : List Char) : List Char :=
  if pfx = [] then [] else pfx ++ [' ']

/-- `shouldUseSyslogPrefix` from `logger.go`: the `JOURNAL_STREAM`
environment value (a parameter here) is non-empty. -/
def shouldUseSyslogPrefix (journalStream : List Char) : Bool :=
  !journalStream.isEmpty

/-- `syslogPrefixForLevel` from `logger.go`. -/
def syslogPrefixForLevel (level : List Char) : List Char :=
  if level = str "EMERG" then str "<0>"
  else if level = str "ALERT" then str "<1>"
  else if level = str "CRIT" then str "<2>"
  else if level = str "DEBUG" then str "<7>"
  else if level = str "INFO" then str "<6>"
  else if level = str "NOTICE" then str "<5>"
  else if level = str "WARNING" then str "<4>"
  else if level = str "ERROR" then str "<3>"
  else if level = str "FATAL" then str "<2>"
  else []

/-- The byte loop of `syslogPrefixWriter.Write`: append every byte, and
after a newline that is not the last byte insert the priority token. -/
def syslogBody (pfx : List Char) : List Char → List Char
  | [] => []
  | [b] => [b]
  | b :: rest =>
    if b = '\n' then b :: (pfx ++ syslogBody pfx rest)
    else b :: syslogBody pfx rest

/-- `syslogPrefixWriter.Write` from `logger.go`: the bytes that reach the
wrapped writer.  An empty priority token passes data through; an empty
write writes nothing; otherwise the token is prepended and re-inserted
after every non-trailing newline. -/
def syslogWrite (pfx : List Char) (data : List Char) : List Char :=
  if pfx = [] then data
  else if data = [] then []
  else pfx ++ syslogBody pfx data

/-- The scanning loop of `plainFileWriter.Write`: outside an escape run,
an ESC byte whose successor is `'['` starts a run; inside a run every
byte up to and including the next `'m'` is dropped. -/
def stripAnsiAux : Bool → List Char → List Char
  | _, [] => []
  | false, c :: rest =>
    if c = escChar ∧ rest.head? = some '[' then stripAnsiAux true rest
    else c :: stripAnsiAux false rest
  | true, c :: rest =>
    if c = 'm' then stripAnsiAux false rest
    else stripAnsiAux true rest

/-- `plainFileWriter.Write` from `logger.go`: strip ANSI color runs. -/
def stripAnsi (data : List Char) : List Char :=
  stripAnsiAux false data

/-- `timestampWriter.Write` from `logger.go`: prepend the formatted
wall-clock timestamp (a parameter here) to the written data. -/
def timestampWrite (ts : List Char) (data : List Char) : List Char :=
  ts ++ data

/-- The level-bracket prefix built by `newPlainLogger`
(`fmt.Sprintf("[%s]", level)` when `showLevel`, else empty). -/
def plainLevelTag (lvl : Level) (showLevel : Bool) : List Char :=
  if showLevel then bracket (levelName lvl) else []

/-- The level-bracket prefix built by `newColorLogger`
(`colors[level] + "[" + level + "]" + reset` when `showLevel`). -/
def colorLevelTag (lvl : Level) (showLevel : Bool) : List Char :=
  if showLevel then
    colorCodeOf (levelName lvl) ++ bracket (levelName lvl) ++ resetCode
  else []

/-- A `log.Logger` line with flag `0`: prefix (with its trailing space),
then the message, then the newline `Println` appends. -/
def logLine (pfx : List Char) (msg : List Char) : List Char :=
  prefixForLog pfx ++ msg ++ ['\n']

/-- Console bytes of one `Println` through a `newPlainLogger` logger:
the flag-0 log line, wrapped by `syslogPrefixWriter` exactly when
`JOURNAL_STREAM` is non-empty and the level has a priority token. -/
def plainConsoleLine (journalStream : List Char) (lvl : Level)
    (showLevel : Bool) (msg : List Char) : List Char :=
  let line := logLine (plainLevelTag lvl showLevel) msg
  if shouldUseSyslogPrefix journalStream then
    let pfx := syslogPrefixForLevel (levelName lvl)
    if pfx ≠ [] then syslogWrite pfx line else line
  else line

/-- File bytes of one `Println` through a `newPlainLogger` logger with a
file writer: the same flag-0 line, routed through `timestampWriter`. -/
def plainFileLine (tsFile : List Char) (lvl : Level) (showLevel : Bool)
    (msg : List Char) : List Char :=
  timestampWrite tsFile (logLine (plainLevelTag lvl showLevel) msg)

/-- Console bytes of one `Println` through a `newColorLogger` logger:
colored prefix (with trailing space), then the `log.LstdFlags` date/time
header `tsStd` (shaped `YYYY/MM/DD HH:MM:SS `), then the message and
newline. -/
def colorConsoleLine (tsStd : List Char) (lvl : Level) (showLevel : Bool)
    (msg : List Char) : List Char :=
  prefixForLog (colorLevelTag lvl showLevel) ++ tsStd ++ msg ++ ['\n']

/-- File bytes of one `Println` through a `newColorLogger` logger with a
file writer: the identical console bytes routed through
`plainFileWriter`, which strips ANSI runs. -/
def colorFileLine (tsStd : List Char) (lvl : Level) (showLevel : Bool)
    (msg : List Char) : List Char :=
  stripAnsi (colorConsoleLine tsStd lvl showLevel msg)

/-- Observable effect of one dispatch call: what reaches the console,
what reaches the file, and whether the process exits (and with which
code). -/
structure DispatchResult : Type where
  console : Option (List Char)
  file : Option (List Char)
  exitCode : Option Nat
deriving DecidableEq, Repr

/-- One dispatch call (`Debugf`/.../`Fatalf` and the `ln`/`KV` variants
after message rendering): a disabled non-fatal severity returns with no
output; fatal always exits with code 1, writing first only when enabled;
an enabled severity writes its console line and, when a file writer is
bound, its file line. -/
def dispatchLn (colorize : Bool) (journalStream : List Char)
    (showLevel : Bool) (fileOn : Bool) (tsStd tsFile : List Char)
    (enabled : Level → Bool) (lvl : Level) (msg : List Char) :
    DispatchResult :=
  if isLevelEnabled enabled lvl then
    { console := some (if colorize then colorConsoleLine tsStd lvl showLevel msg
        else plainConsoleLine journalStream lvl showLevel msg)
      file := if fileOn then
          some (if colorize then colorFileLine tsStd lvl showLevel msg
            else plainFileLine tsFile lvl showLevel msg)
        else none
      exitCode := if lvl = .fatalLevel then some 1 else none }
  else
    { console := none
      file := none
      exitCode := if lvl = .fatalLevel then some 1 else none }

/-- A Go value passed variadically to the `KV` entry points: enough of
Go's `any` to exercise `encodeFields` (string, integer, boolean). -/
inductive GoVal : Type
  | goStr : List Char → GoVal
  | goInt : Int → GoVal
  | goBool : Bool → GoVal
deriving DecidableEq, Repr

/-- Go's `%v` rendering of the modelled values. -/
def goSprintV : GoVal → List Char
  | .goStr s => s
  | .goInt n => (toString n).data
  | .goBool b => if b then str "true" else str "false"

/-- The pair loop of `encodeFields` (`for i := 0; i+1 < len; i += 2`):
only complete pairs are visited, a pair whose key fails the `string`
type assertion contributes nothing, a surviving pair renders as
`key=value`. -/
def encodePairs : List GoVal → List (List Char)
  | k :: v :: rest =>
    (match k with
     | .goStr s => [s ++ '=' :: goSprintV v]
     | _ => []) ++ encodePairs rest
  | _ => []

/-- `strings.Join(parts, " ")`. -/
def joinSpaceSep : List (List Char) → List Char
  | [] => []
  | [x] => x
  | x :: xs => x ++ ' ' :: joinSpaceSep xs

/-- `encodeFields` from `logger.go`: empty input gives the empty string;
otherwise the surviving `key=value` parts joined by single spaces with
one leading space, or the empty string when no pair survives. -/
def encodeFields (keyvals : List GoVal) : List Char :=
  if keyvals = [] then []
  else
    match encodePairs keyvals with
    | [] => []
    | parts => ' ' :: joinSpaceSep parts

/-- `statusCodeToLevel` from `logger.go`. -/
def statusCodeToLevel (code : Int) : Level :=
  if code ≥ 500 then .errorLevel
  else if code ≥ 400 then .warnLevel
  else if code ≥ 300 then .infoLevel
  else .infoLevel

/-- `Api` from `logger.go`, at the level of observable dispatch: which
severity the call goes through and with which message, or `none` when
that severity is disabled. -/
def Api (enabled : Level → Bool) (statusCode : Int) (msg : List Char) :
    Option (Level × List Char) :=
  let level := statusCodeToLevel statusCode
  if isLevelEnabled enabled level then
    some (level, '[' :: ((toString statusCode).data ++ ']' :: ' ' :: msg))
  else none

/-- An open `*os.File` handle, abstracted to the one observable this
development needs: the error its `Close` call would return. -/
structure FileHandle : Type where
  closeErr : Option (List Char)
deriving DecidableEq, Repr

/-- The file-related package state of `logger.go`: the stored `logFile`
handle and the `fileWriter` captured by the current logger bindings. -/
structure LoggerState : Type where
  logFile : Option FileHandle
  boundFile : Option FileHandle
deriving DecidableEq, Repr

/-- `Close` from `logger.go`: close and clear the stored handle,
surfacing its close error; a no-op returning no error when no handle is
stored. -/
def Close (st : LoggerState) : Option (List Char) × LoggerState :=
  match st.logFile with
  | some f => (f.closeErr, { st with logFile := none })
  | none => (none, st)

/-- The file-handling part of `Init` from `logger.go`: with a non-empty
path and a successful open (`openResult = some f`) the stored handle and
the bindings' file writer both become `f`; with an empty path, or when
the open fails, the stored handle is left unchanged and the new bindings
carry no file writer. -/
def InitFile (st : LoggerState) (filePath : List Char)
    (openResult : Option FileHandle) : LoggerState :=
  if filePath ≠ [] then
    match openResult with
    | some f => { logFile := some f, boundFile := some f }
    | none => { logFile := st.logFile, boundFile := none }
  else { logFile := st.logFile, boundFile := none }

/-- Character classes of the timestamp layout `YYYY/MM/DD HH:MM:SS `. -/
inductive ChClass : Type
  | dig
  | slash
  | colon
  | blank
deriving DecidableEq, Repr

/-- Whether a character belongs to a layout class. -/
def matchClass : ChClass → Char → Bool
  | .dig, c => c.isDigit
  | .slash, c => c = '/'
  | .colon, c => c = ':'
  | .blank, c => c = ' '

/-- The class sequence of `time.Now().Format("2006/01/02 15:04:05 ")`
(also the `log.LstdFlags` date/time header shape). -/
def tsClassPattern : List ChClass :=
  [.dig, .dig, .dig, .dig, .slash, .dig, .dig, .slash, .dig, .dig, .blank,
   .dig, .dig, .colon, .dig, .dig, .colon, .dig, .dig, .blank]

/-- Whether the characters start with the given class sequence. -/
def matchesAt : List ChClass → List Char → Bool
  | [], _ => true
  | _ :: _, [] => false
  | p :: ps, c :: cs => matchClass p c && matchesAt ps cs

/-- The output begins with a `YYYY/MM/DD HH:MM:SS ` shaped token. -/
def startsWithTimestamp (s : List Char) : Bool :=
  matchesAt tsClassPattern s

/-- Modelled from the spec: the canonical long severity names of spec
section 3 (debug, info, notice, warning, error, critical, alert,
emergency, fatal), upper-cased as the claimed bracketed rendering.  Used
only to compare the claimed rendering against `levelName`, the name the
code actually renders. -/
def canonicalLongName : Level → List Char
  | .debugLevel => str "DEBUG"
  | .infoLevel => str "INFO"
  | .warnLevel => str "WARNING"
  | .errorLevel => str "ERROR"
  | .fatalLevel => str "FATAL"
  | .noticeLevel => str "NOTICE"
  | .critLevel => str "CRITICAL"
  | .alertLevel => str "ALERT"
  | .emergLevel => str "EMERGENCY"

/-- Modelled from the spec: the fixed per-severity syslog priority table
claimed in spec section 4.3 (emergency `<0>`, alert `<1>`, critical
`<2>`, error `<3>`, warning `<4>`, notice `<5>`, info `<6>`, debug
`<7>`, fatal sharing critical's `<2>`).  Used only to compare against
`syslogPrefixForLevel`. -/
def syslogTokenSpec : Level → List Char
  | .emergLevel => str "<0>"
  | .alertLevel => str "<1>"
  | .critLevel => str "<2>"
  | .errorLevel => str "<3>"
  | .warnLevel => str "<4>"
  | .noticeLevel => str "<5>"
  | .infoLevel => str "<6>"
  | .debugLevel => str "<7>"
  | .fatalLevel => str "<2>"

/-- A well-paired key/value argument list, flattened into the variadic
argument order the Go entry points receive. -/
def flattenPairs : List (GoVal × GoVal) → List GoVal
  | [] => []
  | (k, v) :: ps => k :: v :: flattenPairs ps

/-- The claimed per-pair rendering: a textual key renders its pair as
`key=value`; any other key drops the pair. -/
def pairRender (kv : GoVal × GoVal) : Option (List Char) :=
  match kv.1 with
  | .goStr s => some (s ++ '=' :: goSprintV kv.2)
  | _ => none

/-! ## Helper lemmas -/

theorem sysPfx_ne_nil (lvl : Level) :
    syslogPrefixForLevel (levelName lvl) ≠ [] := by
  cases lvl <;> decide

theorem nl_not_mem_levelName (lvl : Level) : '\n' ∉ levelName lvl := by
  cases lvl <;> decide

theorem esc_not_mem_levelName (lvl : Level) : escChar ∉ levelName lvl := by
  cases lvl <;> decide

theorem sysPfx_head (lvl : Level) :
    ∃ ds, syslogPrefixForLevel (levelName lvl) = '<' :: ds := by
  cases lvl <;>
    first
      | exact ⟨str "0>", by decide⟩
      | exact ⟨str "1>", by decide⟩
      | exact ⟨str "2>", by decide⟩
      | exact ⟨str "3>", by decide⟩
      | exact ⟨str "4>", by decide⟩
      | exact ⟨str "5>", by decide⟩
      | exact ⟨str "6>", by decide⟩
      | exact ⟨str "7>", by decide⟩

theorem syslogBody_cons_cons (pfx : List Char) (b c : Char) (rest : List Char) :
    syslogBody pfx (b :: c :: rest) =
      if b = '\n' then b :: (pfx ++ syslogBody pfx (c :: rest))
      else b :: syslogBody pfx (c :: rest) := by
  rfl

theorem syslogBody_no_nl_append (pfx xs ys : List Char) (h : '\n' ∉ xs) :
    syslogBody pfx (xs ++ ys) = xs ++ syslogBody pfx ys := by
  induction xs with
  | nil => rfl
  | cons x xs ih =>
    have hx : x ≠ '\n' := fun hc => h (hc ▸ List.mem_cons_self x xs)
    have hxs : '\n' ∉ xs := fun hc => h (List.mem_cons_of_mem x hc)
    cases hxy : xs ++ ys with
    | nil =>
      rcases List.append_eq_nil.mp hxy with ⟨h1, h2⟩
      subst h1; subst h2
      rfl
    | cons z zs =>
      rw [List.cons_append, hxy, syslogBody_cons_cons, if_neg hx, ← hxy,
        ih hxs]
      cases xs with
      | nil => rfl
      | cons w ws => rfl

theorem syslogBody_endline (pfx body : List Char) (h : '\n' ∉ body) :
    syslogBody pfx (body ++ ['\n']) = body ++ ['\n'] := by
  rw [syslogBody_no_nl_append pfx body ['\n'] h]
  rfl

theorem syslogWrite_line (pfx body : List Char) (hp : pfx ≠ [])
    (h : '\n' ∉ body) :
    syslogWrite pfx (body ++ ['\n']) = pfx ++ body ++ ['\n'] := by
  have hne : body ++ ['\n'] ≠ [] := by simp
  rw [syslogWrite, if_neg hp, if_neg hne, syslogBody_endline pfx body h,
    List.append_assoc]

theorem matchesAt_append (pat : List ChClass) (xs ys : List Char)
    (h : matchesAt pat xs = true) : matchesAt pat (xs ++ ys) = true := by
  induction pat generalizing xs with
  | nil => rfl
  | cons p ps ih =>
    cases xs with
    | nil => exact absurd h (by simp [matchesAt])
    | cons c cs =>
      rw [matchesAt, Bool.and_eq_true] at h
      rw [List.cons_append, matchesAt, h.1, Bool.true_and]
      exact ih cs h.2

theorem startsWithTimestamp_cons_not_digit (c : Char) (cs : List Char)
    (h : c.isDigit = false) : startsWithTimestamp (c :: cs) = false := by
  rw [startsWithTimestamp, tsClassPattern, matchesAt]
  simp [matchClass, h]

/-! ## Claim theorems -/

/-- Claim C3: a dispatch call for a disabled non-fatal severity returns
with no console output, no file output and no exit; a fatal dispatch
always exits with code 1 — silently (no output at all) when fatal is
disabled, and after writing the console line when fatal is enabled. -/
theorem C3_dispatch_gate :
    ∀ (colorize : Bool) (jn : List Char) (showLevel fileOn : Bool)
      (tsStd tsFile : List Char) (enabled : Level → Bool) (lvl : Level)
      (msg : List Char),
      (enabled lvl = false → lvl ≠ Level.fatalLevel →
        dispatchLn colorize jn showLevel fileOn tsStd tsFile enabled lvl msg =
          ⟨none, none, none⟩)
      ∧ (dispatchLn colorize jn showLevel fileOn tsStd tsFile enabled
            Level.fatalLevel msg).exitCode = some 1
      ∧ (enabled Level.fatalLevel = false →
          dispatchLn colorize jn showLevel fileOn tsStd tsFile enabled
            Level.fatalLevel msg = ⟨none, none, some 1⟩)
      ∧ (enabled Level.fatalLevel = true →
          (dispatchLn colorize jn showLevel fileOn tsStd tsFile enabled
              Level.fatalLevel msg).console =
            some (if colorize then
                colorConsoleLine tsStd Level.fatalLevel showLevel msg
              else plainConsoleLine jn Level.fatalLevel showLevel msg)) := by
  intro colorize jn showLevel fileOn tsStd tsFile enabled lvl msg
  refine ⟨?_, ?_, ?_, ?_⟩
  · intro hd hf
    simp [dispatchLn, isLevelEnabled, hd, hf]
  · by_cases hf : enabled Level.fatalLevel = true <;>
      simp [dispatchLn, isLevelEnabled, hf]
  · intro hd
    simp [dispatchLn, isLevelEnabled, hd]
  · intro he
    simp [dispatchLn, isLevelEnabled, he]

/-- Claim C3 witness: concrete disabled debug call and concrete fatal
calls, instantiating `C3_dispatch_gate`. -/
theorem C3_dispatch_gate_witness :
    ((fun _ : Level => false) Level.debugLevel = false)
    ∧ Level.debugLevel ≠ Level.fatalLevel
    ∧ dispatchLn false [] false false [] [] (fun _ => false)
        Level.debugLevel [] = ⟨none, none, none⟩
    ∧ dispatchLn false [] false false [] [] (fun _ => false)
        Level.fatalLevel [] = ⟨none, none, some 1⟩ :=
  ⟨rfl, by decide,
    (C3_dispatch_gate false [] false false [] [] (fun _ => false)
        Level.debugLevel []).1 rfl (by decide),
    (C3_dispatch_gate false [] false false [] [] (fun _ => false)
        Level.fatalLevel []).2.2.1 rfl⟩

/-- Claim C8: the status-code entry point maps codes at least 500 to
error, codes 400 to 499 to warning and all other codes to info,
prefixes the message with the bracketed status code, and produces
output only when the mapped severity is enabled. -/
theorem C8_api_mapping :
    ∀ (code : Int) (msg : List Char) (enabled : Level → Bool),
      (500 ≤ code → statusCodeToLevel code = Level.errorLevel)
      ∧ (400 ≤ code → code ≤ 499 → statusCodeToLevel code = Level.warnLevel)
      ∧ (code ≤ 399 → statusCodeToLevel code = Level.infoLevel)
      ∧ (enabled (statusCodeToLevel code) = false →
          Api enabled code msg = none)
      ∧ (enabled (statusCodeToLevel code) = true →
          Api enabled code msg =
            some (statusCodeToLevel code,
              '[' :: ((toString code).data ++ ']' :: ' ' :: msg))) := by
  intro code msg enabled
  refine ⟨?_, ?_, ?_, ?_, ?_⟩
  · intro h
    rw [statusCodeToLevel, if_pos h]
  · intro h1 h2
    rw [statusCodeToLevel, if_neg (by omega), if_pos h1]
  · intro h
    rw [statusCodeToLevel, if_neg (by omega), if_neg (by omega)]
    split <;> rfl
  · intro h
    simp [Api, isLevelEnabled, h]
  · intro h
    simp [Api, isLevelEnabled, h]

/-- Claim C8 witness: the 404 path through `C8_api_mapping` — 404 maps
to warning and, with all levels enabled, dispatches `[404] not found`
through the warning path. -/
theorem C8_api_mapping_witness :
    (400 ≤ (404 : Int)) ∧ ((404 : Int) ≤ 499)
    ∧ statusCodeToLevel 404 = Level.warnLevel
    ∧ (allLevelsEnabled (statusCodeToLevel 404) = true)
    ∧ Api allLevelsEnabled 404 (str "not found") =
        some (statusCodeToLevel 404,
          '[' :: ((toString (404 : Int)).data ++ ']' :: ' ' :: str "not found")) :=
  ⟨by norm_num, by norm_num,
    (C8_api_mapping 404 (str "not found") allLevelsEnabled).2.1 (by norm_num)
      (by norm_num),
    rfl,
    (C8_api_mapping 404 (str "not found") allLevelsEnabled).2.2.2.2 rfl⟩

/-- Claim C9: `Close` surfaces the stored handle's close error when a
file is open, is a no-op returning no error when no file was ever
opened, and a second `Close` after a prior one returns no error. -/
theorem C9_close_semantics :
    ∀ (st : LoggerState) (f : FileHandle),
      (st.logFile = some f →
        Close st = (f.closeErr, { st with logFile := none }))
      ∧ (st.logFile = none → Close st = (none, st))
      ∧ (Close (Close st).2).1 = none := by
  intro st f
  refine ⟨?_, ?_, ?_⟩
  · intro h
    simp [Close, h]
  · intro h
    simp [Close, h]
  · cases h : st.logFile <;> simp [Close, h]

/-- Claim C9 witness: concrete states pushed through
`C9_close_semantics` — a failing handle's error is surfaced, and a
never-opened state is a no-op. -/
theorem C9_close_semantics_witness :
    (LoggerState.logFile ⟨some ⟨some (str "boom")⟩, none⟩ =
      some ⟨some (str "boom")⟩)
    ∧ Close ⟨some ⟨some (str "boom")⟩, none⟩ =
        (some (str "boom"), ⟨none, none⟩)
    ∧ (LoggerState.logFile ⟨none, none⟩ = none)
    ∧ Close ⟨none, none⟩ = (none, ⟨none, none⟩) :=
  ⟨rfl,
    (C9_close_semantics ⟨some ⟨some (str "boom")⟩, none⟩
        ⟨some (str "boom")⟩).1 rfl,
    rfl,
    (C9_close_semantics ⟨none, none⟩ ⟨none⟩).2.1 rfl⟩

/-- Claim C10: when a prior `Init` stored a file handle, a later `Init`
with an empty file path (or whose open fails) leaves the stored handle
unchanged, binds no file writer (so dispatch writes no file line), and a
subsequent `Close` still closes the old handle and returns its close
result. -/
theorem C10_reinit_frame :
    ∀ (st : LoggerState) (old : FileHandle) (openRes : Option FileHandle)
      (path : List Char) (colorize : Bool) (jn : List Char)
      (showLevel : Bool) (tsStd tsFile : List Char)
      (enabled : Level → Bool) (lvl : Level) (msg : List Char),
      st.logFile = some old →
      (InitFile st [] openRes).logFile = some old
      ∧ (InitFile st [] openRes).boundFile = none
      ∧ (InitFile st path none).logFile = some old
      ∧ (InitFile st path none).boundFile = none
      ∧ (Close (InitFile st [] openRes)).1 = old.closeErr
      ∧ (Close (InitFile st path none)).1 = old.closeErr
      ∧ (dispatchLn colorize jn showLevel
            (InitFile st [] openRes).boundFile.isSome tsStd tsFile enabled
            lvl msg).file = none := by
  intro st old openRes path colorize jn showLevel tsStd tsFile enabled lvl msg h
  have hempty : InitFile st [] openRes = { logFile := st.logFile, boundFile := none } := by
    simp [InitFile]
  have hfail : InitFile st path none = { logFile := st.logFile, boundFile := none } := by
    rw [InitFile]
    split
    · rfl
    · rfl
  refine ⟨?_, ?_, ?_, ?_, ?_, ?_, ?_⟩
  · rw [hempty, h]
  · rw [hempty]
  · rw [hfail, h]
  · rw [hfail]
  · rw [hempty, h]
    simp [Close]
  · rw [hfail, h]
    simp [Close]
  · rw [hempty]
    by_cases he : enabled lvl = true <;>
      simp [dispatchLn, isLevelEnabled, he]

/-- Claim C10 witness: a concrete prior handle survives a re-`Init` with
an empty path, dispatch carries no file line, and `Close` still returns
the old handle's close result, via `C10_reinit_frame`. -/
theorem C10_reinit_frame_witness :
    (LoggerState.logFile ⟨some ⟨some (str "efail")⟩, some ⟨some (str "efail")⟩⟩ =
      some ⟨some (str "efail")⟩)
    ∧ ((InitFile ⟨some ⟨some (str "efail")⟩, some ⟨some (str "efail")⟩⟩ [] none).logFile =
          some ⟨some (str "efail")⟩
      ∧ (InitFile ⟨some ⟨some (str "efail")⟩, some ⟨some (str "efail")⟩⟩ [] none).boundFile = none
      ∧ (InitFile ⟨some ⟨some (str "efail")⟩, some ⟨some (str "efail")⟩⟩ (str "p") none).logFile =
          some ⟨some (str "efail")⟩
      ∧ (InitFile ⟨some ⟨some (str "efail")⟩, some ⟨some (str "efail")⟩⟩ (str "p") none).boundFile = none
      ∧ (Close (InitFile ⟨some ⟨some (str "efail")⟩, some ⟨some (str "efail")⟩⟩ [] none)).1 =
          FileHandle.closeErr ⟨some (str "efail")⟩
      ∧ (Close (InitFile ⟨some ⟨some (str "efail")⟩, some ⟨some (str "efail")⟩⟩ (str "p") none)).1 =
          FileHandle.closeErr ⟨some (str "efail")⟩
      ∧ (dispatchLn false [] false
            (InitFile ⟨some ⟨some (str "efail")⟩, some ⟨some (str "efail")⟩⟩ [] none).boundFile.isSome
            [] [] allLevelsEnabled Level.infoLevel (str "m")).file = none) :=
  ⟨rfl,
    C10_reinit_frame ⟨some ⟨some (str "efail")⟩, some ⟨some (str "efail")⟩⟩
      ⟨some (str "efail")⟩ none (str "p") false [] false [] []
      allLevelsEnabled Level.infoLevel (str "m") rfl⟩

theorem encodeFields_eq (kvs : List GoVal) :
    encodeFields kvs =
      (match encodePairs kvs with
       | [] => []
       | parts => ' ' :: joinSpaceSep parts) := by
  cases kvs with
  | nil => rfl
  | cons k rest => simp [encodeFields]

theorem encodePairs_flatten (ps : List (GoVal × GoVal)) :
    encodePairs (flattenPairs ps) = ps.filterMap pairRender := by
  induction ps with
  | nil => rfl
  | cons kv ps ih =>
    obtain ⟨k, v⟩ := kv
    cases k <;> simp [flattenPairs, encodePairs, pairRender, ih]

theorem encodePairs_concat_key (ps : List (GoVal × GoVal)) (k : GoVal) :
    encodePairs (flattenPairs ps ++ [k]) = encodePairs (flattenPairs ps) := by
  induction ps with
  | nil => cases k <;> rfl
  | cons kv ps ih =>
    obtain ⟨k', v'⟩ := kv
    cases k' <;> simp [flattenPairs, encodePairs, ih]

/-- Claim C7: the field encoder processes only complete pairs (a
trailing unmatched key is dropped), skips pairs whose key is not a text
string, renders each surviving pair as `key=value`, joins surviving
pairs by single spaces with exactly one leading space, and yields the
empty string when no pair survives. -/
theorem C7_encode_fields :
    ∀ (ps : List (GoVal × GoVal)) (k : GoVal),
      encodeFields (flattenPairs ps ++ [k]) = encodeFields (flattenPairs ps)
      ∧ encodePairs (flattenPairs ps) = ps.filterMap pairRender
      ∧ encodeFields (flattenPairs ps) =
          (match ps.filterMap pairRender with
           | [] => []
           | parts => ' ' :: joinSpaceSep parts) := by
  intro ps k
  refine ⟨?_, encodePairs_flatten ps, ?_⟩
  · rw [encodeFields_eq, encodeFields_eq, encodePairs_concat_key]
  · rw [encodeFields_eq, encodePairs_flatten]

theorem applyToken_true_iff (m : Level → Bool) (p : List Char) (lvl : Level) :
    applyToken m p lvl = true ↔
      levelOfToken ((trimSpace p).map Char.toUpper) = some lvl ∨ m lvl = true := by
  rw [applyToken]
  cases h : levelOfToken ((trimSpace p).map Char.toUpper) with
  | none => simp
  | some l =>
    by_cases he : lvl = l
    · subst he
      simp
    · simp only [if_neg he, Option.some_inj]
      constructor
      · exact fun h => Or.inr h
      · rintro (h | h)
        · exact absurd h.symm he
        · exact h

theorem parseTokens_true_iff (ts : List (List Char)) (m : Level → Bool)
    (lvl : Level) :
    parseTokens ts m lvl = true ↔
      m lvl = true ∨
        ∃ t ∈ ts, levelOfToken ((trimSpace t).map Char.toUpper) = some lvl := by
  induction ts generalizing m with
  | nil => simp [parseTokens]
  | cons t ts ih =>
    rw [parseTokens, List.foldl_cons]
    rw [show List.foldl applyToken (applyToken m t) ts =
      parseTokens ts (applyToken m t) from rfl, ih]
    rw [applyToken_true_iff]
    constructor
    · rintro (⟨h | h⟩ | ⟨u, hu, h⟩)
      · exact Or.inr ⟨t, List.mem_cons_self t ts, h⟩
      · exact Or.inl h
      · exact Or.inr ⟨u, List.mem_cons_of_mem t hu, h⟩
    · rintro (h | ⟨u, hu, h⟩)
      · exact Or.inl (Or.inr h)
      · rcases List.mem_cons.mp hu with hu | hu
        · exact Or.inl (Or.inl (hu ▸ h))
        · exact Or.inr ⟨u, hu, h⟩

/-- Claim C4: an explicit level list always wins (an explicit empty list
disables everything); with no explicit list, the environment value
enables a severity exactly when it is empty after trimming (which
enables all nine) or one of its comma-separated, trimmed, upper-cased
tokens names that severity; `CRIT`/`CRITICAL` and `EMERG`/`EMERGENCY`
are aliases, `WARNING` is accepted and `WARN` is not. -/
theorem C4_level_resolution :
    ∀ (ls : List Level) (env : List Char) (lvl : Level),
      resolveLevels (some ls) env lvl = ls.contains lvl
      ∧ resolveLevels (some []) env lvl = false
      ∧ (resolveLevels none env lvl = true ↔
          (trimSpace env = [] ∨
            ∃ t ∈ splitComma (trimSpace env),
              levelOfToken ((trimSpace t).map Char.toUpper) = some lvl))
      ∧ levelOfToken (str "CRIT") = some Level.critLevel
      ∧ levelOfToken (str "CRITICAL") = some Level.critLevel
      ∧ levelOfToken (str "EMERG") = some Level.emergLevel
      ∧ levelOfToken (str "EMERGENCY") = some Level.emergLevel
      ∧ levelOfToken (str "WARNING") = some Level.warnLevel
      ∧ levelOfToken (str "WARN") = none := by
  intro ls env lvl
  refine ⟨rfl, by simp [resolveLevels, levelsFromSlice], ?_, by decide,
    by decide, by decide, by decide, by decide, by decide⟩
  by_cases henv : env = []
  · subst henv
    simp [resolveLevels, allLevelsEnabled, trimSpace]
  · rw [resolveLevels]
    simp only [henv, ne_eq, not_false_iff, if_true]
    rw [parseLevels]
    by_cases htrim : trimSpace env = []
    · simp [htrim]
    · rw [if_neg htrim]
      rw [parseTokens_true_iff]
      simp [htrim]

theorem nl_not_mem_bracket (lvl : Level) : '\n' ∉ bracket (levelName lvl) := by
  intro h
  rw [bracket] at h
  rcases List.mem_cons.mp h with h | h
  · exact absurd h (by decide)
  · rcases List.mem_append.mp h with h | h
    · exact nl_not_mem_levelName lvl h
    · exact absurd h (by decide)

theorem esc_not_mem_bracket (lvl : Level) : escChar ∉ bracket (levelName lvl) := by
  intro h
  rw [bracket] at h
  rcases List.mem_cons.mp h with h | h
  · exact absurd h (by decide)
  · rcases List.mem_append.mp h with h | h
    · exact esc_not_mem_levelName lvl h
    · exact absurd h (by decide)

theorem logLine_showLevel (lvl : Level) (msg : List Char) :
    logLine (plainLevelTag lvl true) msg =
      (bracket (levelName lvl) ++ ' ' :: msg) ++ ['\n'] := by
  simp [logLine, plainLevelTag, prefixForLog, bracket]

theorem logLine_noLevel (lvl : Level) (msg : List Char) :
    logLine (plainLevelTag lvl false) msg = msg ++ ['\n'] := by
  simp [logLine, plainLevelTag, prefixForLog]

theorem colorLevelTag_ne_nil (lvl : Level) : colorLevelTag lvl true ≠ [] := by
  cases lvl <;> decide

/-- Claim C2 counterexample: with the level-prefix flag set, the
critical severity renders its bracketed token from the code's tag
`CRIT`, not from the canonical long name `CRITICAL` claimed by the
spec — the rendered console line is `[CRIT] x`. -/
theorem C2_counterexample :
    levelName Level.critLevel = str "CRIT"
    ∧ canonicalLongName Level.critLevel = str "CRITICAL"
    ∧ levelName Level.critLevel ≠ canonicalLongName Level.critLevel
    ∧ plainConsoleLine [] Level.critLevel true (str "x") = str "[CRIT] x\n" := by
  refine ⟨by decide, by decide, by decide, by decide⟩

/-- Claim C2 (amended): with the level-prefix flag set every dispatch
call renders a bracketed token of the code's level tag (warning renders
exactly `WARNING`, never `WARN`); with the flag unset the line is
exactly the (possibly syslog-prefixed, possibly timestamped) message
with no bracketed token added. -/
theorem C2_level_tag :
    ∀ (jn ts msg : List Char) (lvl : Level),
      '\n' ∉ msg →
      plainConsoleLine jn lvl true msg =
        (if shouldUseSyslogPrefix jn then syslogPrefixForLevel (levelName lvl)
          else [])
          ++ bracket (levelName lvl) ++ ' ' :: (msg ++ ['\n'])
      ∧ plainConsoleLine jn lvl false msg =
        (if shouldUseSyslogPrefix jn then syslogPrefixForLevel (levelName lvl)
          else [])
          ++ msg ++ ['\n']
      ∧ colorConsoleLine ts lvl true msg =
          colorCodeOf (levelName lvl) ++ bracket (levelName lvl) ++ resetCode
            ++ ' ' :: (ts ++ msg ++ ['\n'])
      ∧ colorConsoleLine ts lvl false msg = ts ++ msg ++ ['\n']
      ∧ plainFileLine ts lvl true msg =
          ts ++ bracket (levelName lvl) ++ ' ' :: (msg ++ ['\n'])
      ∧ levelName Level.warnLevel = str "WARNING"
      ∧ levelName Level.warnLevel ≠ str "WARN" := by
  intro jn ts msg lvl hmsg
  have hb : '\n' ∉ bracket (levelName lvl) ++ ' ' :: msg := by
    intro h
    rcases List.mem_append.mp h with h | h
    · exact nl_not_mem_bracket lvl h
    · rcases List.mem_cons.mp h with h | h
      · exact absurd h (by decide)
      · exact hmsg h
  refine ⟨?_, ?_, ?_, ?_, ?_, by decide, by decide⟩
  · rw [plainConsoleLine]
    cases hjn : shouldUseSyslogPrefix jn with
    | false =>
      simp only [hjn, Bool.false_eq_true, if_false, logLine_showLevel,
        List.nil_append]
      simp
    | true =>
      simp only [hjn, if_true]
      rw [if_pos (sysPfx_ne_nil lvl), logLine_showLevel,
        syslogWrite_line _ _ (sysPfx_ne_nil lvl) hb]
      simp
  · rw [plainConsoleLine]
    cases hjn : shouldUseSyslogPrefix jn with
    | false =>
      simp only [hjn, Bool.false_eq_true, if_false, logLine_noLevel,
        List.nil_append]
    | true =>
      simp only [hjn, if_true]
      rw [if_pos (sysPfx_ne_nil lvl), logLine_noLevel,
        syslogWrite_line _ _ (sysPfx_ne_nil lvl) hmsg]
  · rw [colorConsoleLine, colorLevelTag, if_pos rfl, prefixForLog,
      if_neg (by rw [← show colorLevelTag lvl true =
        colorCodeOf (levelName lvl) ++ bracket (levelName lvl) ++ resetCode
        from by rw [colorLevelTag, if_pos rfl]]; exact colorLevelTag_ne_nil lvl)]
    simp
  · rw [colorConsoleLine, colorLevelTag, if_neg (by simp), prefixForLog,
      if_pos rfl, List.nil_append]
  · rw [plainFileLine, timestampWrite, logLine_showLevel]
    simp

/-- Claim C2 witness: a concrete journald-supervised warning call
rendered through `C2_level_tag` shows the `<4>[WARNING] hello` line. -/
theorem C2_level_tag_witness :
    ('\n' ∉ str "hello")
    ∧ plainConsoleLine (str "1:2") Level.warnLevel true (str "hello") =
        (if shouldUseSyslogPrefix (str "1:2") then
            syslogPrefixForLevel (levelName Level.warnLevel)
          else [])
          ++ bracket (levelName Level.warnLevel) ++ ' ' :: (str "hello" ++ ['\n']) :=
  ⟨by decide,
    (C2_level_tag (str "1:2") (str "TS ") (str "hello") Level.warnLevel
        (by decide)).1⟩

theorem syslogWrite_two_lines (pfx a b : List Char) (hp : pfx ≠ [])
    (ha : '\n' ∉ a) (hb : '\n' ∉ b) :
    syslogWrite pfx (a ++ '\n' :: (b ++ ['\n'])) =
      pfx ++ a ++ '\n' :: (pfx ++ (b ++ ['\n'])) := by
  have hdata : (a ++ '\n' :: (b ++ ['\n'])) ≠ [] := by simp
  rw [syslogWrite, if_neg hp, if_neg hdata,
    syslogBody_no_nl_append pfx a _ ha]
  obtain ⟨c, rs, hcr⟩ : ∃ c rs, b ++ ['\n'] = c :: rs := by
    cases hh : b ++ ['\n'] with
    | nil => exact absurd hh (by simp)
    | cons c rs => exact ⟨c, rs, rfl⟩
  rw [hcr, syslogBody_cons_cons, if_pos rfl, ← hcr,
    syslogBody_endline pfx b hb]
  simp

/-- Claim C5: the syslog numeric priority token equals the claimed fixed
table on every severity (fatal sharing critical's `<2>`); it decorates
only the non-colorized console stream and only when the service-manager
environment value is non-empty (otherwise the undecorated line is
written, and the colorized console line is built with no syslog step at
all); and within one write the token appears at the start and after
every embedded newline except a trailing one. -/
theorem C5_syslog_priority :
    (∀ lvl, syslogPrefixForLevel (levelName lvl) = syslogTokenSpec lvl)
    ∧ syslogTokenSpec Level.fatalLevel = syslogTokenSpec Level.critLevel
    ∧ (∀ (lvl : Level) (sl : Bool) (msg : List Char),
        plainConsoleLine [] lvl sl msg = logLine (plainLevelTag lvl sl) msg)
    ∧ (∀ (jn : List Char) (lvl : Level) (sl : Bool) (msg : List Char),
        jn ≠ [] →
        plainConsoleLine jn lvl sl msg =
          syslogWrite (syslogPrefixForLevel (levelName lvl))
            (logLine (plainLevelTag lvl sl) msg))
    ∧ (∀ (ts : List Char) (lvl : Level) (sl : Bool) (msg : List Char),
        colorConsoleLine ts lvl sl msg =
          prefixForLog (colorLevelTag lvl sl) ++ ts ++ msg ++ ['\n'])
    ∧ (∀ (pfx a b : List Char), pfx ≠ [] → '\n' ∉ a → '\n' ∉ b →
        syslogWrite pfx (a ++ '\n' :: (b ++ ['\n'])) =
          pfx ++ a ++ '\n' :: (pfx ++ (b ++ ['\n']))) := by
  refine ⟨fun lvl => by cases lvl <;> decide, by decide, ?_, ?_,
    fun ts lvl sl msg => rfl, syslogWrite_two_lines⟩
  · intro lvl sl msg
    rw [plainConsoleLine]
    simp [shouldUseSyslogPrefix]
  · intro jn lvl sl msg hjn
    rw [plainConsoleLine]
    have hs : shouldUseSyslogPrefix jn = true := by
      simp [shouldUseSyslogPrefix, hjn]
    simp only [hs, if_true]
    rw [if_pos (sysPfx_ne_nil lvl)]

/-- Claim C5 witness: a concrete journald debug line and a concrete
two-line write pushed through `C5_syslog_priority`: the token decorates
the line start and the interior newline, not the trailing one. -/
theorem C5_syslog_priority_witness :
    ((str "1:2" : List Char) ≠ [])
    ∧ ('\n' ∉ str "a") ∧ ('\n' ∉ str "b") ∧ ((str "<6>" : List Char) ≠ [])
    ∧ plainConsoleLine (str "1:2") Level.debugLevel true (str "dbg") =
        syslogWrite (syslogPrefixForLevel (levelName Level.debugLevel))
          (logLine (plainLevelTag Level.debugLevel true) (str "dbg"))
    ∧ syslogWrite (str "<6>") (str "a" ++ '\n' :: (str "b" ++ ['\n'])) =
        str "<6>" ++ str "a" ++ '\n' :: (str "<6>" ++ (str "b" ++ ['\n'])) :=
  ⟨by decide, by decide, by decide, by decide,
    C5_syslog_priority.2.2.2.1 (str "1:2") Level.debugLevel true (str "dbg")
      (by decide),
    C5_syslog_priority.2.2.2.2.2 (str "<6>") (str "a") (str "b") (by decide)
      (by decide) (by decide)⟩

theorem stripAnsiAux_false_cons (c : Char) (rest : List Char) :
    stripAnsiAux false (c :: rest) =
      if c = escChar ∧ rest.head? = some '[' then stripAnsiAux true rest
      else c :: stripAnsiAux false rest := by
  rfl

theorem stripAnsiAux_true_cons (c : Char) (rest : List Char) :
    stripAnsiAux true (c :: rest) =
      if c = 'm' then stripAnsiAux false rest else stripAnsiAux true rest := by
  rfl

theorem stripAnsi_no_esc_append (xs ys : List Char) (h : escChar ∉ xs) :
    stripAnsi (xs ++ ys) = xs ++ stripAnsi ys := by
  induction xs with
  | nil => rfl
  | cons c cs ih =>
    have hc : c ≠ escChar := fun hc => h (hc ▸ List.mem_cons_self c cs)
    have hcs : escChar ∉ cs := fun hm => h (List.mem_cons_of_mem c hm)
    rw [List.cons_append, stripAnsi, stripAnsiAux_false_cons,
      if_neg (fun hand => hc hand.1)]
    rw [stripAnsi] at ih
    rw [ih hcs, List.cons_append]

theorem stripAnsi_no_esc (xs : List Char) (h : escChar ∉ xs) :
    stripAnsi xs = xs := by
  have h2 := stripAnsi_no_esc_append xs [] h
  rw [List.append_nil, show stripAnsi ([] : List Char) = [] from rfl,
    List.append_nil] at h2
  exact h2

theorem stripAnsiAux_true_no_m (mid rest : List Char) (h : 'm' ∉ mid) :
    stripAnsiAux true (mid ++ 'm' :: rest) = stripAnsiAux false rest := by
  induction mid with
  | nil => rw [List.nil_append, stripAnsiAux_true_cons, if_pos rfl]
  | cons c cs ih =>
    have hc : c ≠ 'm' := fun hc => h (hc ▸ List.mem_cons_self c cs)
    have hcs : 'm' ∉ cs := fun hm => h (List.mem_cons_of_mem c hm)
    rw [List.cons_append, stripAnsiAux_true_cons, if_neg hc, ih hcs]

theorem stripAnsi_escape_run (mid rest : List Char) (h : 'm' ∉ mid) :
    stripAnsi (escChar :: '[' :: (mid ++ 'm' :: rest)) = stripAnsi rest := by
  have hm2 : 'm' ∉ ('[' :: mid : List Char) := by
    intro hm
    rcases List.mem_cons.mp hm with hm | hm
    · exact absurd hm (by decide)
    · exact h hm
  have hsh : ('[' :: (mid ++ 'm' :: rest)) = ('[' :: mid) ++ 'm' :: rest := rfl
  rw [stripAnsi, stripAnsiAux_false_cons, if_pos ⟨rfl, rfl⟩, hsh,
    stripAnsiAux_true_no_m ('[' :: mid) rest hm2]
  rfl

theorem stripAnsi_code_append (mid rest : List Char) (h : 'm' ∉ mid) :
    stripAnsi ((escChar :: '[' :: (mid ++ ['m'])) ++ rest) = stripAnsi rest := by
  have hsh : (escChar :: '[' :: (mid ++ ['m'])) ++ rest =
      escChar :: '[' :: (mid ++ 'm' :: rest) := by simp
  rw [hsh, stripAnsi_escape_run mid rest h]

theorem stripAnsi_colorCode (lvl : Level) (rest : List Char) :
    stripAnsi (colorCodeOf (levelName lvl) ++ rest) = stripAnsi rest := by
  obtain ⟨ds, hds, hm⟩ : ∃ ds, colorCodeOf (levelName lvl) =
      escChar :: '[' :: (ds ++ ['m']) ∧ 'm' ∉ ds := by
    cases lvl <;>
      first
        | exact ⟨['3', '6'], by decide, by decide⟩
        | exact ⟨['3', '2'], by decide, by decide⟩
        | exact ⟨['3', '4'], by decide, by decide⟩
        | exact ⟨['3', '3'], by decide, by decide⟩
        | exact ⟨['3', '1'], by decide, by decide⟩
        | exact ⟨['9', '1'], by decide, by decide⟩
        | exact ⟨['9', '5'], by decide, by decide⟩
        | exact ⟨['9', '7'], by decide, by decide⟩
        | exact ⟨['3', '5'], by decide, by decide⟩
  rw [hds]
  exact stripAnsi_code_append ds rest hm

theorem stripAnsi_resetCode (rest : List Char) :
    stripAnsi (resetCode ++ rest) = stripAnsi rest := by
  rw [show resetCode = escChar :: '[' :: (['0'] ++ ['m']) from by decide]
  exact stripAnsi_code_append ['0'] rest (by decide)

theorem esc_mem_colorCode (lvl : Level) :
    escChar ∈ colorCodeOf (levelName lvl) := by
  cases lvl <;> decide

theorem colorConsoleLine_show (ts msg : List Char) (lvl : Level) :
    colorConsoleLine ts lvl true msg =
      colorCodeOf (levelName lvl) ++
        (bracket (levelName lvl) ++
          (resetCode ++ (' ' :: (ts ++ msg ++ ['\n'])))) := by
  rw [colorConsoleLine, colorLevelTag, if_pos rfl, prefixForLog,
    if_neg ?_]
  · simp
  · rw [show colorCodeOf (levelName lvl) ++ bracket (levelName lvl) ++
        resetCode = colorLevelTag lvl true from by simp [colorLevelTag]]
    exact colorLevelTag_ne_nil lvl

theorem colorConsoleLine_noshow (ts msg : List Char) (lvl : Level) :
    colorConsoleLine ts lvl false msg = ts ++ msg ++ ['\n'] := by
  rw [colorConsoleLine, colorLevelTag, if_neg (by simp), prefixForLog,
    if_pos rfl, List.nil_append]

/-- Claim C6 counterexample: with colorization on but the level-prefix
flag off, the colorized console line of an escape-free message contains
no ANSI escape character at all, refuting that the colorized console
output of every call contains ANSI escape sequences. -/
theorem C6_counterexample :
    escChar ∉ colorConsoleLine (str "2025/10/26 10:30:45 ") Level.infoLevel
        false (str "hello")
    ∧ colorConsoleLine (str "2025/10/26 10:30:45 ") Level.infoLevel false
        (str "hello") = str "2025/10/26 10:30:45 hello\n" := by
  refine ⟨by decide, by decide⟩

/-- Claim C6 (amended): the file-bound copy of a colorized write has the
ANSI escape runs removed — any ESC `[` pair starts a run consumed up to
and including the next `m` — so for an escape-free message and header
the file copy contains no escape character while, whenever the
level-prefix flag is set, the colorized console copy does contain ANSI
escape sequences; with the flag unset no escape sequence is added to
either copy. -/
theorem C6_ansi_strip :
    ∀ (ts msg mid rest : List Char) (lvl : Level),
      escChar ∉ msg → escChar ∉ ts → 'm' ∉ mid →
      stripAnsi (escChar :: '[' :: (mid ++ 'm' :: rest)) = stripAnsi rest
      ∧ escChar ∈ colorConsoleLine ts lvl true msg
      ∧ colorFileLine ts lvl true msg =
          bracket (levelName lvl) ++ ' ' :: (ts ++ msg ++ ['\n'])
      ∧ colorFileLine ts lvl false msg = ts ++ msg ++ ['\n']
      ∧ escChar ∉ colorFileLine ts lvl true msg := by
  intro ts msg mid rest lvl hmsg hts hmid
  have hrest : escChar ∉ (' ' :: (ts ++ msg ++ ['\n']) : List Char) := by
    intro h
    rcases List.mem_cons.mp h with h | h
    · exact absurd h (by decide)
    · rcases List.mem_append.mp h with h | h
      · rcases List.mem_append.mp h with h | h
        · exact hts h
        · exact hmsg h
      · exact absurd h (by decide)
  have hfile : colorFileLine ts lvl true msg =
      bracket (levelName lvl) ++ ' ' :: (ts ++ msg ++ ['\n']) := by
    rw [colorFileLine, colorConsoleLine_show, stripAnsi_colorCode,
      stripAnsi_no_esc_append _ _ (esc_not_mem_bracket lvl),
      stripAnsi_resetCode, stripAnsi_no_esc _ hrest]
  refine ⟨stripAnsi_escape_run mid rest hmid, ?_, hfile, ?_, ?_⟩
  · rw [colorConsoleLine_show]
    exact List.mem_append.mpr (Or.inl (esc_mem_colorCode lvl))
  · rw [colorFileLine, colorConsoleLine_noshow]
    exact stripAnsi_no_esc _ (fun h => hrest (List.mem_cons_of_mem ' ' h))
  · rw [hfile]
    intro h
    rcases List.mem_append.mp h with h | h
    · exact esc_not_mem_bracket lvl h
    · exact hrest h

/-- Claim C6 witness: a concrete colorized info call through
`C6_ansi_strip`: the file copy is the stripped plain line. -/
theorem C6_ansi_strip_witness :
    (escChar ∉ str "hello") ∧ (escChar ∉ str "TS ") ∧ ('m' ∉ str "36")
    ∧ colorFileLine (str "TS ") Level.infoLevel true (str "hello") =
        bracket (levelName Level.infoLevel) ++
          ' ' :: (str "TS " ++ str "hello" ++ ['\n']) :=
  ⟨by decide, by decide, by decide,
    (C6_ansi_strip (str "TS ") (str "hello") (str "36") [] Level.infoLevel
        (by decide) (by decide) (by decide)).2.2.1⟩

theorem plainConsole_not_ts (jn msg : List Char) (lvl : Level) (sl : Bool)
    (hmsg : startsWithTimestamp (msg ++ ['\n']) = false) :
    startsWithTimestamp (plainConsoleLine jn lvl sl msg) = false := by
  rw [plainConsoleLine]
  have hplain : startsWithTimestamp (logLine (plainLevelTag lvl sl) msg) = false := by
    cases sl with
    | false =>
      rw [logLine_noLevel]
      exact hmsg
    | true =>
      rw [logLine_showLevel]
      rw [show (bracket (levelName lvl) ++ ' ' :: msg) ++ ['\n'] =
        '[' :: (((levelName lvl ++ [']']) ++ ' ' :: msg) ++ ['\n'])
        from by simp [bracket]]
      exact startsWithTimestamp_cons_not_digit '[' _ (by decide)
  cases hjn : shouldUseSyslogPrefix jn with
  | false => simpa [hjn] using hplain
  | true =>
    simp only [hjn, if_true]
    rw [if_pos (sysPfx_ne_nil lvl)]
    have hlne : logLine (plainLevelTag lvl sl) msg ≠ [] := by
      rw [logLine]
      simp
    obtain ⟨ds, hds⟩ := sysPfx_head lvl
    rw [syslogWrite, if_neg (sysPfx_ne_nil lvl), if_neg hlne, hds,
      List.cons_append]
    exact startsWithTimestamp_cons_not_digit '<' _ (by decide)

/-- Claim C1 counterexample: the colorized pipeline builds its console
line with the `log.LstdFlags` date/time header, so the console line of a
colorized dispatch (here: info, no level prefix, no file) begins with a
`YYYY/MM/DD HH:MM:SS ` shaped token — the console line does carry a
timestamp. -/
theorem C1_counterexample :
    startsWithTimestamp (colorConsoleLine (str "2025/10/26 10:30:45 ")
        Level.infoLevel false (str "hello")) = true
    ∧ colorConsoleLine (str "2025/10/26 10:30:45 ") Level.infoLevel false
        (str "hello") = str "2025/10/26 10:30:45 hello\n" := by
  refine ⟨by decide, by decide⟩

/-- Claim C1 (amended): in the non-colorized pipeline, for a message
that does not itself start with a date-shaped token, the console line
never begins with a `YYYY/MM/DD HH:MM:SS ` shaped token — whether or not
a file is configured and whether or not journald decoration applies —
while the file-bound copy of the same call always begins with the
timestamp. -/
theorem C1_timestamp_split :
    ∀ (jn tsFile msg : List Char) (lvl : Level) (sl : Bool),
      startsWithTimestamp tsFile = true →
      startsWithTimestamp (msg ++ ['\n']) = false →
      startsWithTimestamp (plainFileLine tsFile lvl sl msg) = true
      ∧ startsWithTimestamp (plainConsoleLine jn lvl sl msg) = false := by
  intro jn tsFile msg lvl sl hts hmsg
  refine ⟨?_, plainConsole_not_ts jn msg lvl sl hmsg⟩
  rw [plainFileLine, timestampWrite]
  exact matchesAt_append tsClassPattern tsFile _ hts

/-- Claim C1 witness: a concrete plain info call with a file bound,
through `C1_timestamp_split`: the file line starts with the timestamp,
the console line does not. -/
theorem C1_timestamp_split_witness :
    startsWithTimestamp (str "2025/10/26 10:30:45 ") = true
    ∧ startsWithTimestamp (str "hello" ++ ['\n']) = false
    ∧ (startsWithTimestamp (plainFileLine (str "2025/10/26 10:30:45 ")
          Level.infoLevel true (str "hello")) = true
      ∧ startsWithTimestamp (plainConsoleLine (str "1:2") Level.infoLevel
          true (str "hello")) = false) :=
  ⟨by decide, by decide,
    C1_timestamp_split (str "1:2") (str "2025/10/26 10:30:45 ")
      (str "hello") Level.infoLevel true (by decide) (by decide)⟩

end GoLogger
